import Mathlib

/-!
Verification of the live-reload core of the markdown preview server
(mermaid-markdown-render). The definitions below are shallow embeddings of
the TypeScript source:

* `ClientManager` with `addClient`, `removeClient`, `getClientCount`,
  `notifyReload`  — src/watcher/file-watcher.ts, class ClientManager.
* `RebuildState` / `rebuildStep`      — src/watcher/file-watcher.ts, class
  TypeScriptRebuilder (rebuild entry plus the close handler of the spawned
  tsc process), with a ghost counter of in-flight tsc processes.
* `loadMarkdown`, `mainStartup`, `markdownChangeStep` — src/index.ts.
* `fileWatcherIgnoredMatches`, `sourceExtensionMatches`,
  `sourceChangeTriggersRebuild`      — the chokidar ignore pattern of
  src/config.ts (FILE_WATCHER_OPTIONS.ignored) combined with the change
  handler of FileWatcher.watchSourceCode.
* `rendererCode`                     — src/markdown/renderer.ts,
  createCodeRenderer.

Channels (express Response objects) are an opaque type parameter with
decidable equality; reference identity of the source becomes equality of
the parameter. Effects are made explicit: a channel whose write throws is
modelled by a Boolean-valued behaviour function, a file read either yields
the content or fails, and the handler of the tsc close event receives the
exit code as an optional integer (null when killed by a signal).
-/

/-- The constant MESSAGES.ERROR_LOADING_FILE of src/config.ts. -/
def MESSAGES_ERROR_LOADING_FILE : String := "<p>Error loading markdown file</p>"

/-! ## ClientManager (Connection Registry) -/

/-- The ClientManager of src/watcher/file-watcher.ts: its only field is the
array `clients`, modelled as a list (array order = registration order). -/
structure ClientManager (α : Type) where
  clients : List α

/-- The initial manager: `private clients: Response[] = []`. -/
def mkClientManager {α : Type} : ClientManager α := ⟨[]⟩

/-- `addClient(client)`: `this.clients.push(client)` — unconditional append,
no deduplication. -/
def addClient {α : Type} (m : ClientManager α) (c : α) : ClientManager α :=
  ⟨m.clients ++ [c]⟩

/-- `removeClient(client)`: `index = clients.indexOf(client); if (index !== -1)
clients.splice(index, 1)`. JavaScript indexOf yields -1 when the element is
absent; Lean List.indexOf yields the length instead, so the guard
`index !== -1` becomes `index ≠ length`. Removal is total (never throws). -/
def removeClient {α : Type} [DecidableEq α] (m : ClientManager α) (c : α) :
    ClientManager α :=
  let index := m.clients.indexOf c
  if index = m.clients.length then m else ⟨m.clients.eraseIdx index⟩

/-- `getClientCount()`: `this.clients.length`. -/
def getClientCount {α : Type} (m : ClientManager α) : Nat :=
  m.clients.length

/-- The body of `notifyReload()`: `this.clients.forEach((client) =>
client.write("data: reload\n\n"))`. There is no try/catch around the write.
`throws c = true` means the write to channel `c` throws; forEach then stops
and the exception escapes. The result is the list of channels the message
was written to, in order, paired with whether an exception propagated out. -/
def notifyReloadRun {α : Type} (throws : α → Bool) :
    List α → List α × Bool
  | [] => ([], false)
  | c :: rest =>
    if throws c then ([], true)
    else
      let r := notifyReloadRun throws rest
      (c :: r.1, r.2)

/-- `notifyReload()` on a manager: iterate over the registered clients. -/
def notifyReload {α : Type} (m : ClientManager α) (throws : α → Bool) :
    List α × Bool :=
  notifyReloadRun throws m.clients

/-! ## Registry operation traces (for the count invariant) -/

/-- One call on the registry: register (addClient) or unregister
(removeClient). -/
inductive RegistryOp (α : Type) where
  | register (c : α)
  | unregister (c : α)

/-- Apply one registry call. -/
def registryStep {α : Type} [DecidableEq α] (m : ClientManager α) :
    RegistryOp α → ClientManager α
  | .register c => addClient m c
  | .unregister c => removeClient m c

/-- Run a sequence of registry calls. -/
def registryRun {α : Type} [DecidableEq α] (m : ClientManager α)
    (ops : List (RegistryOp α)) : ClientManager α :=
  ops.foldl registryStep m

/-- Number of register calls in a sequence. -/
def countRegisters {α : Type} : List (RegistryOp α) → Nat
  | [] => 0
  | .register _ :: ops => 1 + countRegisters ops
  | .unregister _ :: ops => countRegisters ops

/-- Number of unregister calls that found their channel present (the calls
that actually splice the array). -/
def countEffectiveRemovals {α : Type} [DecidableEq α] (m : ClientManager α) :
    List (RegistryOp α) → Nat
  | [] => 0
  | .register c :: ops => countEffectiveRemovals (registryStep m (.register c)) ops
  | .unregister c :: ops =>
    (if c ∈ m.clients then 1 else 0) +
      countEffectiveRemovals (registryStep m (.unregister c)) ops

/-! ## TypeScriptRebuilder (Rebuild Coordinator) -/

/-- State of the TypeScriptRebuilder: the source flag `isRebuilding`
together with a ghost counter of spawned tsc processes whose close event has
not yet fired (the source holds no such counter; it records how many
external rebuilds are concurrently in flight). -/
structure RebuildState where
  isRebuilding : Bool
  running : Nat

/-- Initial coordinator state: `private isRebuilding = false` and no tsc
process in flight. -/
def rebuildInit : RebuildState := ⟨false, 0⟩

/-- One event processed by the coordinator: a call to `rebuild(...)`, or the
close event of the spawned tsc process carrying the exit code (`none` when
the process was killed by a signal, Node then passes null). -/
inductive RebuildEvent where
  | request
  | close (code : Option Int)

/-- One step of TypeScriptRebuilder.rebuild of src/watcher/file-watcher.ts.
`request`: if `isRebuilding` the call logs REBUILD_IN_PROGRESS and returns
(no state change, nothing spawned); otherwise it sets the flag and spawns
tsc. `close code`: the close handler sets `isRebuilding = false` and, when
`code === 0`, calls `onSuccess()`; otherwise it only logs the failure. The
returned Boolean records whether this event invoked `onSuccess`. -/
def rebuildStep (s : RebuildState) : RebuildEvent → RebuildState × Bool
  | .request =>
    if s.isRebuilding then (s, false)
    else (⟨true, s.running + 1⟩, false)
  | .close code => (⟨false, s.running - 1⟩, decide (code = some 0))

/-- Run a sequence of coordinator events. -/
def rebuildRun (s : RebuildState) (evs : List RebuildEvent) : RebuildState :=
  evs.foldl (fun s e => (rebuildStep s e).1) s

/-- Coordinator invariant: at most one tsc process in flight, and none while
idle. -/
def RebuildInv (s : RebuildState) : Prop :=
  s.running ≤ 1 ∧ (s.isRebuilding = false → s.running = 0)

/-- Number of Idle→Running transitions taken along a trace (requests
accepted while idle). -/
def countStarts (s : RebuildState) : List RebuildEvent → Nat
  | [] => 0
  | .request :: evs =>
    (if s.isRebuilding then 0 else 1) +
      countStarts (rebuildStep s .request).1 evs
  | .close code :: evs => countStarts (rebuildStep s (.close code)).1 evs

/-- Number of Running→Idle transitions taken along a trace (close events
arriving while running). -/
def countFinishes (s : RebuildState) : List RebuildEvent → Nat
  | [] => 0
  | .request :: evs => countFinishes (rebuildStep s .request).1 evs
  | .close code :: evs =>
    (if s.isRebuilding then 1 else 0) +
      countFinishes (rebuildStep s (.close code)).1 evs

/-! ## Orchestrator: content loading, startup, content-change handler -/

/-- Result of `readFileSync(filePath, "utf-8")`: the file content, or a
thrown error (file unreadable). -/
inductive ReadResult where
  | ok (content : String)
  | err

/-- loadMarkdown of src/index.ts: try to read the file and parse it; on any
read error, log and return MESSAGES.ERROR_LOADING_FILE. The markdown→HTML
conversion (parseMarkdown, delegating to the external marked library) is
the parameter `parse`. loadMarkdown itself never throws: every error is
caught inside it. -/
def loadMarkdown (parse : String → String) (read : ReadResult) : String :=
  match read with
  | .ok content => parse content
  | .err => MESSAGES_ERROR_LOADING_FILE

/-- Observable outcome of startup (main of src/index.ts). -/
inductive StartupOutcome where
  | exited (code : Nat)
  | serverStarted (content : String)

/-- Startup path of main in src/index.ts: getMarkdownFilePath exits with
code 1 when no argument is given; otherwise main sets currentHtmlContent
to the result of loadMarkdown and proceeds to start the HTTP server. The
try/catch around loadMarkdown in main (which would exit with code 1) is
unreachable because loadMarkdown catches every read error internally and
returns the ERROR_LOADING_FILE string instead of throwing. -/
def mainStartup (parse : String → String) (args : List String)
    (read : ReadResult) : StartupOutcome :=
  match args with
  | [] => .exited 1
  | _ :: _ => .serverStarted (loadMarkdown parse read)

/-- Process-wide mutable state touched by a markdown change event: the
rendered-content cell of src/index.ts plus the client manager. -/
structure AppState (α : Type) where
  currentHtmlContent : String
  clientManager : ClientManager α

/-- The change handler installed by FileWatcher.watchMarkdownFile combined
with the onChange callback of setupFileWatching (src/index.ts): on every
change event it assigns `currentHtmlContent = loadMarkdown(path)` and then
unconditionally calls `clientManager.notifyReload()`. The Boolean records
that notifyReload was invoked. -/
def markdownChangeStep {α : Type} (parse : String → String)
    (read : ReadResult) (s : AppState α) : AppState α × Bool :=
  (⟨loadMarkdown parse read, s.clientManager⟩, true)

/-! ## Source watcher filter -/

/-- Scan for the chokidar ignore pattern of src/config.ts,
`/(^|[\/\\])\../`, at non-initial positions: a slash or backslash followed
by a dot followed by any character. -/
def ignoredAux : List Char → Bool
  | a :: '.' :: b :: rest =>
    (a = '/' || a = '\\') || ignoredAux ('.' :: b :: rest)
  | _ :: rest => ignoredAux rest
  | [] => false

/-- FILE_WATCHER_OPTIONS.ignored of src/config.ts: the regular expression
`(^|[\/\\])\..` — a dot at the start of the path or right after a path
separator, followed by at least one character. chokidar drops events for
matching paths before any handler runs. -/
def fileWatcherIgnoredMatches (path : String) : Bool :=
  match path.data with
  | '.' :: _ :: _ => true
  | l => ignoredAux l

/-- The condition of the change handler in FileWatcher.watchSourceCode:
`path.endsWith(".ts") || path.endsWith(".js")`. -/
def sourceExtensionMatches (path : String) : Bool :=
  ".ts".data.isSuffixOf path.data || ".js".data.isSuffixOf path.data

/-- Whether a filesystem change to `path` makes the watchSourceCode handler
invoke the rebuilder: chokidar only delivers the event when the path does
not match the ignore pattern, and the handler then requires a .ts or .js
suffix. -/
def sourceChangeTriggersRebuild (path : String) : Bool :=
  !fileWatcherIgnoredMatches path && sourceExtensionMatches path

/-! ## Markdown code renderer -/

/-- renderer.code of createCodeRenderer in src/markdown/renderer.ts.
External collaborators are parameters: `hljsGetLanguage lang` tells whether
highlight.js supports `lang` (the source guard `language &&
hljs.getLanguage(language)` is also false for the empty string, which is
falsy in JavaScript); `hljsHighlight code lang` returns the highlighted
HTML or `none` when hljs.highlight throws (the catch branch logs and falls
through); `originalCode` is the bound default marked renderer. A block
whose language is exactly "mermaid" is emitted as a mermaid div with the
block body inserted verbatim — no escaping of any kind is applied to it. -/
def rendererCode (hljsGetLanguage : String → Bool)
    (hljsHighlight : String → String → Option String)
    (originalCode : String → Option String → Bool → String)
    (code : String) (language : Option String) (isEscaped : Bool) : String :=
  if language = some "mermaid" then
    "<div class=\"mermaid\">" ++ code ++ "</div>"
  else
    match language with
    | some lang =>
      if lang ≠ "" ∧ hljsGetLanguage lang then
        match hljsHighlight code lang with
        | some highlighted =>
          "<pre><code class=\"hljs language-" ++ lang ++ "\">" ++
            highlighted ++ "</code></pre>"
        | none => originalCode code language isEscaped
      else originalCode code language isEscaped
    | none => originalCode code language isEscaped

/-! ## Helper lemmas -/

/-- Pushing a client increments the count by one. -/
theorem getClientCount_addClient {α : Type} (m : ClientManager α) (c : α) :
    getClientCount (addClient m c) = getClientCount m + 1 := by
  simp [getClientCount, addClient]

/-- Removing an absent client leaves the manager unchanged. -/
theorem removeClient_not_mem {α : Type} [DecidableEq α] (m : ClientManager α)
    (c : α) (h : c ∉ m.clients) : removeClient m c = m := by
  unfold removeClient
  simp [List.indexOf_eq_length.mpr h]

/-- Removing a present client decrements the count by one. -/
theorem getClientCount_removeClient_mem {α : Type} [DecidableEq α]
    (m : ClientManager α) (c : α) (h : c ∈ m.clients) :
    getClientCount (removeClient m c) + 1 = getClientCount m := by
  unfold removeClient
  have hlt : m.clients.indexOf c < m.clients.length :=
    List.indexOf_lt_length.mpr h
  simp only [Nat.ne_of_lt hlt, if_false]
  exact List.length_eraseIdx_add_one hlt

/-- Count accounting along an arbitrary sequence of registry calls. -/
theorem registryRun_count {α : Type} [DecidableEq α]
    (ops : List (RegistryOp α)) (m : ClientManager α) :
    getClientCount (registryRun m ops) + countEffectiveRemovals m ops
      = getClientCount m + countRegisters ops := by
  induction ops generalizing m with
  | nil => simp [registryRun, countEffectiveRemovals, countRegisters]
  | cons op ops ih =>
    cases op with
    | register c =>
      have h1 : registryRun m (.register c :: ops)
          = registryRun (addClient m c) ops := rfl
      have h2 := ih (addClient m c)
      simp only [h1, countEffectiveRemovals, countRegisters, registryStep]
      rw [h2, getClientCount_addClient]
      omega
    | unregister c =>
      have h1 : registryRun m (.unregister c :: ops)
          = registryRun (removeClient m c) ops := rfl
      have h2 := ih (removeClient m c)
      simp only [h1, countEffectiveRemovals, countRegisters, registryStep]
      by_cases hc : c ∈ m.clients
      · have h3 := getClientCount_removeClient_mem m c hc
        simp only [hc, if_true]
        omega
      · rw [removeClient_not_mem m c hc] at h2 ⊢
        simp only [hc, if_false]
        omega

/-- The coordinator invariant is preserved by every event. -/
theorem rebuildInv_step (s : RebuildState) (e : RebuildEvent)
    (h : RebuildInv s) : RebuildInv (rebuildStep s e).1 := by
  obtain ⟨h1, h2⟩ := h
  cases e with
  | request =>
    cases hb : s.isRebuilding with
    | false =>
      have := h2 hb
      simp [rebuildStep, hb, RebuildInv]
      omega
    | true =>
      have hs : (rebuildStep s .request).1 = s := by
        simp [rebuildStep, hb]
      rw [hs]
      exact ⟨h1, h2⟩
  | close code =>
    simp [rebuildStep, RebuildInv]
    omega

/-- The coordinator invariant is preserved by every trace. -/
theorem rebuildInv_run (evs : List RebuildEvent) (s : RebuildState)
    (h : RebuildInv s) : RebuildInv (rebuildRun s evs) := by
  induction evs generalizing s with
  | nil => exact h
  | cons e evs ih =>
    have h1 : rebuildRun s (e :: evs) = rebuildRun (rebuildStep s e).1 evs := rfl
    rw [h1]
    exact ih _ (rebuildInv_step s e h)

/-- Start/finish accounting along an arbitrary trace. -/
theorem countStarts_eq_countFinishes (evs : List RebuildEvent)
    (s : RebuildState) :
    countStarts s evs + (if s.isRebuilding then 1 else 0)
      = countFinishes s evs
        + (if (rebuildRun s evs).isRebuilding then 1 else 0) := by
  induction evs generalizing s with
  | nil => simp [countStarts, countFinishes, rebuildRun]
  | cons e evs ih =>
    have hrun : rebuildRun s (e :: evs) = rebuildRun (rebuildStep s e).1 evs := rfl
    cases e with
    | request =>
      have := ih (rebuildStep s .request).1
      cases hb : s.isRebuilding with
      | false =>
        simp [countStarts, countFinishes, hrun, hb, rebuildStep] at this ⊢
        omega
      | true =>
        simp [countStarts, countFinishes, hrun, hb, rebuildStep] at this ⊢
        omega
    | close code =>
      have := ih (rebuildStep s (.close code)).1
      cases hb : s.isRebuilding with
      | false =>
        simp [countStarts, countFinishes, hrun, hb, rebuildStep] at this ⊢
        omega
      | true =>
        simp [countStarts, countFinishes, hrun, hb, rebuildStep] at this ⊢
        omega

/-! ## Claim theorems -/

/-- C1 counterexample: with channels 1, 2, 3 registered and the write to
channel 2 throwing, notifyReload writes only to channel 1 — channel 3 never
receives the message — and the exception propagates out of the broadcast,
refuting the claim that a per-channel failure is caught and the remaining
channels still receive the message. -/
theorem notifyReload_second_throws_cx :
    notifyReload (⟨[1, 2, 3]⟩ : ClientManager Nat) (fun c => decide (c = 2))
      = ([1], true) ∧
    3 ∉ (notifyReload (⟨[1, 2, 3]⟩ : ClientManager Nat)
      (fun c => decide (c = 2))).1 := by
  decide

/-- C1 (amended): notifyReload writes to the registered channels in order
up to the first channel whose write throws; that exception propagates out
of the broadcast and every channel after the throwing one does not receive
the message. -/
theorem notifyReload_delivers_until_throw {α : Type} (throws : α → Bool)
    (pre : List α) (bad : α) (post : List α)
    (hpre : ∀ c ∈ pre, throws c = false) (hbad : throws bad = true) :
    notifyReload ⟨pre ++ bad :: post⟩ throws = (pre, true) := by
  unfold notifyReload
  induction pre with
  | nil => simp [notifyReloadRun, hbad]
  | cons a pre ih =>
    have ha : throws a = false := hpre a (List.mem_cons_self a pre)
    have ih2 := ih fun c hc => hpre c (List.mem_cons_of_mem a hc)
    simp only [List.cons_append, notifyReloadRun, ha, Bool.false_eq_true,
      if_false]
    have ih3 : notifyReloadRun throws (pre.append (bad :: post))
        = (pre, true) := ih2
    rw [ih3]

/-- Witness for the amended C1 theorem at channels [1], 2, [3] with the
write to channel 2 throwing. -/
theorem notifyReload_delivers_until_throw_witness :
    notifyReload (⟨[1] ++ 2 :: [3]⟩ : ClientManager Nat)
      (fun c => decide (c = 2)) = ([1], true) :=
  notifyReload_delivers_until_throw (fun c => decide (c = 2)) [1] 2 [3]
    (by decide) (by decide)

/-- C2: along every event trace from the initial coordinator state at most
one rebuild process is in flight at any instant, and a rebuild request
arriving while the flag is set is a no-op: it returns immediately with the
state unchanged and does not invoke any callback or spawn anything. -/
theorem rebuild_at_most_one_running :
    (∀ evs : List RebuildEvent, (rebuildRun rebuildInit evs).running ≤ 1) ∧
    (∀ s : RebuildState, s.isRebuilding = true →
      rebuildStep s .request = (s, false)) := by
  constructor
  · intro evs
    have hinit : RebuildInv rebuildInit := ⟨Nat.zero_le 1, fun _ => rfl⟩
    exact (rebuildInv_run evs rebuildInit hinit).1
  · intro s hs
    simp [rebuildStep, hs]

/-- Witness for C2: a concrete trace keeps at most one rebuild in flight,
and a request in the running state is the identity. -/
theorem rebuild_at_most_one_running_witness :
    (rebuildRun rebuildInit
      [.request, .request, .close (some 0), .request]).running ≤ 1 ∧
    rebuildStep ⟨true, 1⟩ .request = (⟨true, 1⟩, false) :=
  ⟨rebuild_at_most_one_running.1 [.request, .request, .close (some 0), .request],
   rebuild_at_most_one_running.2 ⟨true, 1⟩ rfl⟩

/-- C3: every close event, whatever the exit code, leaves the coordinator
idle; a request issued right after a completion is accepted (it starts a
new rebuild rather than being dropped); and along every trace from the
initial state the number of Idle→Running transitions equals the number of
Running→Idle transitions plus one exactly when a rebuild is still in
flight — no state is leaked on failure. -/
theorem rebuild_returns_to_idle :
    (∀ (s : RebuildState) (code : Option Int),
      (rebuildStep s (.close code)).1.isRebuilding = false) ∧
    (∀ (s : RebuildState) (code : Option Int),
      rebuildStep (rebuildStep s (.close code)).1 .request
        = (⟨true, (rebuildStep s (.close code)).1.running + 1⟩, false)) ∧
    (∀ evs : List RebuildEvent,
      countStarts rebuildInit evs
        = countFinishes rebuildInit evs
          + (if (rebuildRun rebuildInit evs).isRebuilding then 1 else 0)) := by
  refine ⟨fun s code => rfl, fun s code => rfl, fun evs => ?_⟩
  have h := countStarts_eq_countFinishes evs rebuildInit
  simpa [rebuildInit] using h

/-- C4: the close handler invokes onSuccess exactly when the exit code is
0: it is invoked on exit code 0 and not invoked on any other outcome
(non-zero exit code, or null after a signal). -/
theorem onSuccess_iff_exit_zero (s : RebuildState) (code : Option Int) :
    (rebuildStep s (.close (some 0))).2 = true ∧
    (code ≠ some 0 → (rebuildStep s (.close code)).2 = false) := by
  refine ⟨by simp [rebuildStep], fun h => ?_⟩
  simp [rebuildStep, h]

/-- Witness for C4 at exit codes 0 and 2. -/
theorem onSuccess_iff_exit_zero_witness :
    (rebuildStep ⟨true, 1⟩ (.close (some 0))).2 = true ∧
    (rebuildStep ⟨true, 1⟩ (.close (some 2))).2 = false :=
  ⟨(onSuccess_iff_exit_zero ⟨true, 1⟩ (some 2)).1,
   (onSuccess_iff_exit_zero ⟨true, 1⟩ (some 2)).2 (by decide)⟩

/-- C5 counterexample: a change event after which the content file is
unreadable replaces the previously rendered content ("<h1>old</h1>") with
the error-loading message, and the reload broadcast is still issued,
refuting the claim that the rendered-content cell is unchanged and no
broadcast is sent. -/
theorem content_error_cx :
    (markdownChangeStep id .err
      (⟨"<h1>old</h1>", ⟨[7]⟩⟩ : AppState Nat)).1.currentHtmlContent
      ≠ "<h1>old</h1>" ∧
    (markdownChangeStep id .err
      (⟨"<h1>old</h1>", ⟨[7]⟩⟩ : AppState Nat)).2 = true := by
  constructor
  · intro h
    exact absurd h (by decide)
  · rfl

/-- C5 (amended): on a change event where reading the content file fails,
the handler overwrites the rendered-content cell with the
MESSAGES.ERROR_LOADING_FILE string and still invokes notifyReload — the
failed reload is surfaced to clients as an error page, not suppressed. -/
theorem content_error_replaces_and_broadcasts {α : Type}
    (parse : String → String) (s : AppState α) :
    markdownChangeStep parse .err s
      = (⟨MESSAGES_ERROR_LOADING_FILE, s.clientManager⟩, true) := rfl

/-- C6 (code evaluated at the failing input): when the content file is
unreadable at startup and a file argument was given, main does not exit —
loadMarkdown swallows the read error, so startup proceeds to start the
HTTP server serving the error-loading message. -/
theorem startup_unreadable_starts_server (parse : String → String) :
    mainStartup parse ["doc.md"] .err
      = .serverStarted MESSAGES_ERROR_LOADING_FILE := rfl

/-- C7 counterexample: registering the same channel twice yields a count of
2, refuting the claim that a channel registered twice is never
double-counted. -/
theorem double_register_cx :
    getClientCount (addClient (addClient (mkClientManager : ClientManager Nat) 5) 5)
      = 2 ∧
    getClientCount (addClient (addClient (mkClientManager : ClientManager Nat) 5) 5)
      ≠ 1 := by
  decide

/-- C7 (amended): for every sequence of register and unregister calls
starting from the empty registry, count() plus the number of unregister
calls that found their channel present equals the number of register
calls — so the count is registrations minus effective removals and can
never go negative; a channel registered twice is counted twice until it is
removed twice. -/
theorem count_eq_registers_minus_removals {α : Type} [DecidableEq α]
    (ops : List (RegistryOp α)) :
    getClientCount (registryRun mkClientManager ops)
      + countEffectiveRemovals mkClientManager ops
      = countRegisters ops := by
  have h := registryRun_count ops (mkClientManager : ClientManager α)
  simpa [mkClientManager, getClientCount] using h

/-- C8: unregistering a channel that is not currently registered leaves the
manager unchanged; the embedding of removeClient is a total function, so no
exception can be raised. -/
theorem unregister_unknown_noop {α : Type} [DecidableEq α]
    (m : ClientManager α) (c : α) (h : c ∉ m.clients) :
    removeClient m c = m :=
  removeClient_not_mem m c h

/-- Witness for C8: removing channel 5 from a registry holding 1 and 2. -/
theorem unregister_unknown_noop_witness :
    removeClient (⟨[1, 2]⟩ : ClientManager Nat) 5 = ⟨[1, 2]⟩ :=
  unregister_unknown_noop ⟨[1, 2]⟩ 5 (by decide)

/-- C9 counterexample: the path ".a.ts" ends in .ts, yet it matches the
dotfile ignore pattern, so its change event never reaches the handler and
no rebuild is triggered — refuting the claim that a rebuild is triggered
if and only if the path ends in .ts or .js. -/
theorem dotfile_ts_cx :
    sourceExtensionMatches ".a.ts" = true ∧
    sourceChangeTriggersRebuild ".a.ts" = false := by
  decide

/-- C9 (amended): a source change triggers the rebuild exactly when the
path does not match the dotfile ignore pattern and ends in .ts or .js: on
paths the ignore pattern does not match, triggering coincides with the
extension test; paths matching the ignore pattern never trigger; and of
the spec examples a.ts, a.js, a.md, a.json only the first two trigger. -/
theorem source_filter_characterization :
    (∀ path : String, fileWatcherIgnoredMatches path = false →
      sourceChangeTriggersRebuild path = sourceExtensionMatches path) ∧
    (∀ path : String, fileWatcherIgnoredMatches path = true →
      sourceChangeTriggersRebuild path = false) ∧
    sourceChangeTriggersRebuild "a.ts" = true ∧
    sourceChangeTriggersRebuild "a.js" = true ∧
    sourceChangeTriggersRebuild "a.md" = false ∧
    sourceChangeTriggersRebuild "a.json" = false := by
  refine ⟨fun path h => ?_, fun path h => ?_, by decide, by decide,
    by decide, by decide⟩
  · simp [sourceChangeTriggersRebuild, h]
  · simp [sourceChangeTriggersRebuild, h]

/-- Witness for C9 at a clean source path and at a dotfile path. -/
theorem source_filter_characterization_witness :
    sourceChangeTriggersRebuild "a.ts" = sourceExtensionMatches "a.ts" ∧
    sourceChangeTriggersRebuild ".a.md" = false :=
  ⟨source_filter_characterization.1 "a.ts" (by decide),
   source_filter_characterization.2.1 ".a.md" (by decide)⟩

/-- C10: a fenced code block whose language is exactly "mermaid" renders as
a div of class mermaid whose content is the block source inserted verbatim,
with no escaping applied — whatever HTML markup characters the diagram
source contains appear unchanged in the output. -/
theorem mermaid_block_verbatim (hljsGetLanguage : String → Bool)
    (hljsHighlight : String → String → Option String)
    (originalCode : String → Option String → Bool → String)
    (code : String) (isEscaped : Bool) :
    rendererCode hljsGetLanguage hljsHighlight originalCode code
      (some "mermaid") isEscaped
      = "<div class=\"mermaid\">" ++ code ++ "</div>" := by
  simp [rendererCode]
